import Mathlib

/-!
Verification of the godojo bootstrap installer (`cmd/bootstrap.go`).

The Go code is shallowly embedded: pure computations (path construction,
version-string parsing, distro dispatch) become Lean functions; the
effectful acquisition pipelines (`getDojoSource`, `getDojoRelease`,
`extractRelease`) become functions from a configuration, an environment of
external-call outcomes, and (for the release path) an explicit filesystem
state to a trace of external effects plus a result.  A `none` result models
the Go function returning `nil`; `some e` models returning the error `e`.
-/

namespace Godojo

/-- Subset of the `Install` section of `DDConfig.conf` read by the
bootstrap code (`d.conf.Install.*` in the Go source). -/
structure InstallConfig where
  Root : String
  Source : String
  Version : String
  PullSource : Bool
  SourceInstall : Bool
  SourceCommit : String
  SourceBranch : String
  PyPath : String
deriving DecidableEq, Repr

/-- The `conf` field of `DDConfig`; only the Install section is consumed
by the bootstrap code under verification. -/
structure DojoConfig where
  Install : InstallConfig
deriving DecidableEq, Repr

/-- The slice of the godojo `DDConfig` struct read by `bootstrap.go`:
the loaded configuration plus the two URL fields (`d.cloneURL`,
`d.releaseURL`). -/
structure DDConfig where
  conf : DojoConfig
  cloneURL : String
  releaseURL : String
deriving DecidableEq, Repr

/-- `filepath.Join` as used in `bootstrap.go`.  All call sites join a
clean absolute root with a clean relative name, so the Go cleaning pass
reduces to inserting a single separator. -/
def filepathJoin (a b : String) : String :=
  a ++ "/" ++ b

/-! ## Distro dispatch (`bootstrapInstall`, lines 30-49) -/

/-- Go `strings.ToLower` restricted to the character sets compared in
`bootstrapInstall` (ASCII), viewed on the character list of the string. -/
def stringsToLower (s : String) : List Char :=
  s.toList.map Char.toLower

/-- The two distro families recognized by the `switch` in
`bootstrapInstall`. -/
inductive DistroFamily
  | ubuntu
  | rhel
deriving DecidableEq, Repr

/-- The distro dispatch of `bootstrapInstall`: the `switch` compares
`strings.ToLower(t.distro)` against `"ubuntu"` and `"rhel"` and selects
the matching command table; any other value falls to the `default` case. -/
def resolveDistroFamily (distro : String) : Option DistroFamily :=
  if stringsToLower distro = "ubuntu".toList then some DistroFamily.ubuntu
  else if stringsToLower distro = "rhel".toList then some DistroFamily.rhel
  else none

/-- Exit behaviour of the distro dispatch in `bootstrapInstall`:
`some 1` models the `default` branch calling `os.Exit(1)` for an
unsupported distro; `none` means the dispatch selected a command table
and the run continues. -/
def bootstrapDistroExit (distro : String) : Option Nat :=
  match resolveDistroFamily distro with
  | some _ => none
  | none => some 1

/-! ## Python version check (`checkPythonVersion`, lines 107-113) -/

/-- Go `bytes.Split` / `strings.Split` with a one-character separator,
on character lists: splits at every occurrence of `sep`, always returns
at least one (possibly empty) piece. -/
def goSplitAux (sep : Char) : List Char → List Char → List (List Char)
  | [], acc => [acc.reverse]
  | c :: cs, acc =>
    if c = sep then acc.reverse :: goSplitAux sep cs []
    else goSplitAux sep cs (c :: acc)

/-- Go `strings.Split(s, sep)` for a single-character separator. -/
def goSplit (sep : Char) (s : List Char) : List (List Char) :=
  goSplitAux sep s []

/-- Output parsing of `checkPythonVersion`: the combined output of
`<PyPath> --version` is split on newlines, the first line is split on
single spaces, the token at index 1 is taken (`line[1]`), and the result
is `strings.HasPrefix(pyVer, "3.11")`.  When the first line has fewer
than two space-separated tokens, the Go indexing `line[1]` is out of
range and the process panics; that panic is modelled as `none`. -/
def checkPythonVersion (cmdOut : String) : Option Bool :=
  let lines := goSplit '\n' cmdOut.toList
  let line := goSplit ' ' (lines.headD [])
  match line with
  | _ :: pyVer :: _ => some (List.isPrefixOf "3.11".toList pyVer)
  | _ => none

/-! ## Claims about the distro dispatch and the version check -/

/-- C6: the Python-version parser accepts a `--version` output whose
first line is `Python 3.11.4` and rejects one whose first line is
`Python 3.10.9`: it takes the second whitespace-separated token of the
first line and checks it has prefix `3.11`. -/
theorem checkPythonVersion_accepts_311_rejects_310 :
    checkPythonVersion "Python 3.11.4" = some true ∧
    checkPythonVersion "Python 3.11.4\n" = some true ∧
    checkPythonVersion "Python 3.10.9" = some false ∧
    checkPythonVersion "Python 3.10.9\n" = some false := by
  refine ⟨?_, ?_, ?_, ?_⟩ <;> decide

/-- C7: on a `--version` output whose first line contains no space, such
as `Python3.11.4`, the code does NOT return `false`: the split of the
first line on spaces yields a single token, so the access `line[1]` is
out of range and the Go process panics (modelled as `none`).  The claim
that the access to the second token is total for such input is refuted
by this evaluation. -/
theorem checkPythonVersion_panics_without_space :
    checkPythonVersion "Python3.11.4" = none ∧
    checkPythonVersion "Python3.11.4" ≠ some false := by
  refine ⟨?_, ?_⟩ <;> decide

/-- C8: distro resolution lowercases the family name before comparing,
so `Ubuntu`, `ubuntu` and `UBUNTU` all resolve to the Ubuntu command
table, and every family whose lowercasing is neither `ubuntu` nor `rhel`
resolves to nothing and makes `bootstrapInstall` exit with status 1. -/
theorem resolveDistro_case_insensitive_unsupported_exits :
    (resolveDistroFamily "Ubuntu" = some DistroFamily.ubuntu ∧
     resolveDistroFamily "ubuntu" = some DistroFamily.ubuntu ∧
     resolveDistroFamily "UBUNTU" = some DistroFamily.ubuntu ∧
     resolveDistroFamily "RHEL" = some DistroFamily.rhel) ∧
    ∀ s : String, stringsToLower s ≠ "ubuntu".toList → stringsToLower s ≠ "rhel".toList →
      resolveDistroFamily s = none ∧ bootstrapDistroExit s = some 1 := by
  refine ⟨by decide, ?_⟩
  intro s h1 h2
  have hr : resolveDistroFamily s = none := by
    unfold resolveDistroFamily
    rw [if_neg h1, if_neg h2]
  refine ⟨hr, ?_⟩
  unfold bootstrapDistroExit
  rw [hr]

/-- Witness for C8 at the concrete unsupported family `debian`. -/
theorem resolveDistro_case_insensitive_unsupported_exits_witness :
    resolveDistroFamily "debian" = none ∧ bootstrapDistroExit "debian" = some 1 :=
  resolveDistro_case_insensitive_unsupported_exits.2 "debian" (by decide) (by decide)

/-! ## Source acquisition (`getDojoSource`, lines 275-353)

`getDojoSource` performs a sequence of external calls (stat, mkdir, git
clone, worktree, checkout).  The embedding records the calls made as a
trace of `GitEffect`s and draws the outcome of each external call from a
`GitEnv` oracle.  The second return value of `repo.Worktree()` is
discarded by the Go code (`wk, _ := repo.Worktree()`); the field
`worktreeErr` models that discarded value. -/

/-- External calls made by `getDojoSource`, in program order. -/
inductive GitEffect
  | mkdirAll (path : String)
  | plainClone (url : String) (path : String)
  | worktreeCall
  | checkout (hash : String)
  | plainCloneBranch (url : String) (path : String) (ref : String)
deriving DecidableEq, Repr

/-- Outcomes of the external calls `getDojoSource` can make.
`srcPathExists` is the result of `os.Stat(srcPath)` succeeding;
each `Option String` is the error value the corresponding call would
return (`none` = success).  `worktreeErr` is the error value of
`repo.Worktree()`, which the Go code discards. -/
structure GitEnv where
  srcPathExists : Bool
  mkdirErr : Option String
  cloneErr : Option String
  worktreeErr : Option String
  checkoutErr : Option String
  branchCloneErr : Option String
deriving DecidableEq, Repr

/-- The error built at lines 325-326 when both source selectors are
empty, with both configured values interpolated. -/
def ambiguousSourceMsg (commit branch : String) : String :=
  "Both source commit and branch have empty or nonsensical values configured.\n" ++
  "  Source commit was configured as " ++ commit ++ " and branch was configured as " ++ branch

/-- Embedding of `getDojoSource` (lines 275-353).  Returns the trace of
external calls made, in order, and the returned error (`none` = `nil`).
Control flow mirrors the source: stat the source path and create it
recursively when absent (returning a creation error); when
`SourceCommit` is non-empty, full clone of `cloneURL` then worktree then
checkout of the commit hash (the worktree error being discarded); else
when `SourceBranch` is empty, return the ambiguous-configuration error;
else single-branch clone of `refs/heads/<branch>`. -/
def getDojoSource (d : DDConfig) (env : GitEnv) : List GitEffect × Option String :=
  let srcPath := filepathJoin d.conf.Install.Root d.conf.Install.Source
  let pre : List GitEffect := if env.srcPathExists then [] else [GitEffect.mkdirAll srcPath]
  if ¬ env.srcPathExists ∧ env.mkdirErr.isSome then
    (pre, env.mkdirErr)
  else if 0 < d.conf.Install.SourceCommit.length then
    match env.cloneErr with
    | some e => (pre ++ [GitEffect.plainClone d.cloneURL srcPath], some e)
    | none =>
      let tr := pre ++ [GitEffect.plainClone d.cloneURL srcPath, GitEffect.worktreeCall,
        GitEffect.checkout d.conf.Install.SourceCommit]
      match env.checkoutErr with
      | some e => (tr, some e)
      | none => (tr, none)
  else if d.conf.Install.SourceBranch.length = 0 then
    (pre, some (ambiguousSourceMsg d.conf.Install.SourceCommit d.conf.Install.SourceBranch))
  else
    let ref := "refs/heads/" ++ d.conf.Install.SourceBranch
    match env.branchCloneErr with
    | some e => (pre ++ [GitEffect.plainCloneBranch d.cloneURL srcPath ref], some e)
    | none => (pre ++ [GitEffect.plainCloneBranch d.cloneURL srcPath ref], none)

/-- The Install section of a concrete configuration with a non-empty
source commit, used by witnesses. -/
def commitInstall : InstallConfig where
  Root := "/opt/dojo"
  Source := "django-DefectDojo"
  Version := "2.30.0"
  PullSource := true
  SourceInstall := true
  SourceCommit := "abc123"
  SourceBranch := "dev"
  PyPath := "/usr/bin/python3.11"

/-- A concrete configuration with a non-empty source commit, used by
witnesses. -/
def dCommitCfg : DDConfig where
  conf := { Install := commitInstall }
  cloneURL := "https://github.com/DefectDojo/django-DefectDojo.git"
  releaseURL := "https://github.com/DefectDojo/django-DefectDojo/archive/"

/-- The Install section of a concrete configuration with both source
selectors empty, used by witnesses. -/
def ambiguousInstall : InstallConfig where
  Root := "/opt/dojo"
  Source := "django-DefectDojo"
  Version := "2.30.0"
  PullSource := true
  SourceInstall := true
  SourceCommit := ""
  SourceBranch := ""
  PyPath := "/usr/bin/python3.11"

/-- A concrete configuration with both source selectors empty, used by
witnesses. -/
def dAmbiguousCfg : DDConfig where
  conf := { Install := ambiguousInstall }
  cloneURL := "https://github.com/DefectDojo/django-DefectDojo.git"
  releaseURL := "https://github.com/DefectDojo/django-DefectDojo/archive/"

/-- An environment in which the source path exists and every external
call succeeds. -/
def gitEnvAllOk : GitEnv :=
  { srcPathExists := true, mkdirErr := none, cloneErr := none,
    worktreeErr := none, checkoutErr := none, branchCloneErr := none }

/-- C1: when `sourceCommit` is non-empty, `getDojoSource` takes the
commit-checkout path: no single-branch clone ever happens, the
successful-clone trace is exactly (optional mkdir, full clone of
`cloneURL`, worktree, checkout of exactly `SourceCommit`), and the whole
run is independent of the value of `SourceBranch`. -/
theorem getDojoSource_commit_precedence (d : DDConfig) (env : GitEnv)
    (hc : 0 < d.conf.Install.SourceCommit.length) :
    (∀ u p r, GitEffect.plainCloneBranch u p r ∉ (getDojoSource d env).1) ∧
    ((env.srcPathExists = true ∨ env.mkdirErr = none) → env.cloneErr = none →
      (getDojoSource d env).1 =
        (if env.srcPathExists then [] else
          [GitEffect.mkdirAll (filepathJoin d.conf.Install.Root d.conf.Install.Source)]) ++
        [GitEffect.plainClone d.cloneURL (filepathJoin d.conf.Install.Root d.conf.Install.Source),
         GitEffect.worktreeCall, GitEffect.checkout d.conf.Install.SourceCommit]) ∧
    (∀ b, getDojoSource
        { d with conf := { d.conf with Install := { d.conf.Install with SourceBranch := b } } } env
      = getDojoSource d env) := by
  obtain ⟨spe, mke, cle, wte, che, bce⟩ := env
  refine ⟨?_, ?_, ?_⟩
  · intro u p r
    cases spe <;> cases mke <;> cases cle <;> cases che <;>
      simp [getDojoSource, hc]
  · intro hm hcl
    cases spe <;> cases mke <;> cases che <;>
      simp_all [getDojoSource, hc]
  · intro b
    cases spe <;> cases mke <;> cases cle <;> cases che <;>
      simp [getDojoSource, hc]

/-- Witness for C1: with commit `abc123` configured and all calls
succeeding, the trace is the full clone followed by worktree and the
checkout of that commit. -/
theorem getDojoSource_commit_precedence_witness :
    (getDojoSource dCommitCfg gitEnvAllOk).1 =
      [GitEffect.plainClone dCommitCfg.cloneURL "/opt/dojo/django-DefectDojo",
       GitEffect.worktreeCall, GitEffect.checkout "abc123"] := by
  have h := (getDojoSource_commit_precedence dCommitCfg gitEnvAllOk (by decide)).2.1
    (Or.inl rfl) rfl
  simpa [dCommitCfg, commitInstall, gitEnvAllOk, filepathJoin] using h

/-- C2: when source install is configured and both `sourceCommit` and
`sourceBranch` are empty, `getDojoSource` makes no network call (no
clone of either kind appears in the trace), and (whenever the directory
step does not itself fail) returns exactly the configuration error that
interpolates both configured (empty) values. -/
theorem getDojoSource_ambiguous_config (d : DDConfig) (env : GitEnv)
    (hsi : d.conf.Install.SourceInstall = true)
    (hc : d.conf.Install.SourceCommit = "")
    (hb : d.conf.Install.SourceBranch = "") :
    (∀ u p, GitEffect.plainClone u p ∉ (getDojoSource d env).1) ∧
    (∀ u p r, GitEffect.plainCloneBranch u p r ∉ (getDojoSource d env).1) ∧
    ((env.srcPathExists = true ∨ env.mkdirErr = none) →
      (getDojoSource d env).2 =
        some (ambiguousSourceMsg d.conf.Install.SourceCommit d.conf.Install.SourceBranch)) := by
  obtain ⟨spe, mke, cle, wte, che, bce⟩ := env
  refine ⟨?_, ?_, ?_⟩
  · intro u p
    cases spe <;> cases mke <;>
      simp [getDojoSource, hc, hb]
  · intro u p r
    cases spe <;> cases mke <;>
      simp [getDojoSource, hc, hb]
  · intro hm
    cases spe <;> cases mke <;>
      simp_all [getDojoSource, hc, hb]

/-- Witness for C2 at a concrete all-empty-selector configuration. -/
theorem getDojoSource_ambiguous_config_witness :
    (getDojoSource dAmbiguousCfg gitEnvAllOk).2 = some (ambiguousSourceMsg "" "") := by
  have h := (getDojoSource_ambiguous_config dAmbiguousCfg gitEnvAllOk rfl rfl rfl).2.2
    (Or.inl rfl)
  simpa [dAmbiguousCfg, ambiguousInstall] using h

/-- C9: with both selectors empty and the source directory absent, the
recursive directory creation happens first and the configuration error
is returned after it: the whole run is exactly one `mkdirAll` effect
followed by the ambiguous-configuration error, with no effect undoing
the creation. -/
theorem getDojoSource_mkdir_before_config_error (d : DDConfig) (env : GitEnv)
    (hc : d.conf.Install.SourceCommit = "")
    (hb : d.conf.Install.SourceBranch = "")
    (hs : env.srcPathExists = false)
    (hm : env.mkdirErr = none) :
    getDojoSource d env =
      ([GitEffect.mkdirAll (filepathJoin d.conf.Install.Root d.conf.Install.Source)],
       some (ambiguousSourceMsg d.conf.Install.SourceCommit d.conf.Install.SourceBranch)) := by
  obtain ⟨spe, mke, cle, wte, che, bce⟩ := env
  cases spe <;> cases mke <;> simp_all [getDojoSource, hc, hb]

/-- Witness for C9 at a concrete configuration with the source
directory absent. -/
theorem getDojoSource_mkdir_before_config_error_witness :
    getDojoSource dAmbiguousCfg
      { srcPathExists := false, mkdirErr := none, cloneErr := none,
        worktreeErr := none, checkoutErr := none, branchCloneErr := none } =
      ([GitEffect.mkdirAll "/opt/dojo/django-DefectDojo"], some (ambiguousSourceMsg "" "")) := by
  have h := getDojoSource_mkdir_before_config_error dAmbiguousCfg
    { srcPathExists := false, mkdirErr := none, cloneErr := none,
      worktreeErr := none, checkoutErr := none, branchCloneErr := none } rfl rfl rfl rfl
  simpa [dAmbiguousCfg, ambiguousInstall, filepathJoin] using h

/-- C10: the error result of `repo.Worktree()` is discarded: the entire
run of `getDojoSource` (trace and returned error) is unchanged by any
worktree failure, and in the commit path the checkout of the configured
commit is still attempted after a successful clone even when the
worktree call failed. -/
theorem getDojoSource_worktree_error_discarded (d : DDConfig) (env : GitEnv) (e : String) :
    (getDojoSource d { env with worktreeErr := some e } = getDojoSource d env) ∧
    (0 < d.conf.Install.SourceCommit.length →
      (env.srcPathExists = true ∨ env.mkdirErr = none) → env.cloneErr = none →
      GitEffect.checkout d.conf.Install.SourceCommit ∈
        (getDojoSource d { env with worktreeErr := some e }).1) := by
  refine ⟨rfl, ?_⟩
  intro hc hm hcl
  obtain ⟨spe, mke, cle, wte, che, bce⟩ := env
  cases spe <;> cases mke <;> cases che <;>
    simp_all [getDojoSource, hc]

/-- Witness for C10: a failing worktree call changes nothing and the
checkout of the configured commit still appears in the trace. -/
theorem getDojoSource_worktree_error_discarded_witness :
    (getDojoSource dCommitCfg { gitEnvAllOk with worktreeErr := some "worktree failed" }
      = getDojoSource dCommitCfg gitEnvAllOk) ∧
    GitEffect.checkout "abc123" ∈
      (getDojoSource dCommitCfg { gitEnvAllOk with worktreeErr := some "worktree failed" }).1 := by
  have h := getDojoSource_worktree_error_discarded dCommitCfg gitEnvAllOk "worktree failed"
  exact ⟨h.1, h.2 (by decide) (Or.inl rfl) rfl⟩

/-! ## Release acquisition (`getDojoRelease`, lines 152-244, and
`extractRelease`, lines 246-270)

The release path both inspects and mutates the filesystem (the stat of
the tarball decides whether to download; the rename moves a directory),
so it is embedded over an explicit filesystem state: the lists of
existing directories and files, by absolute path.  Every directory in
this model is one the installer deals with (the install root or an
extracted release tree), and extracted trees are never empty.  External
outcomes the filesystem does not determine (the HTTP download, file
creation, the body copy, the archive expansion) come from a `RelEnv`
oracle, and the calls made are recorded as a `RelEffect` trace. -/

/-- Filesystem state: existing directories and regular files. -/
structure FS where
  dirs : List String
  files : List String
deriving DecidableEq, Repr

/-- Success of the external calls of the release path that the
filesystem state does not determine. -/
structure RelEnv where
  mkdirOk : Bool
  httpOk : Bool
  createOk : Bool
  copyOk : Bool
  openOk : Bool
  untarOk : Bool
deriving DecidableEq, Repr

/-- External calls made by the release path, in program order.
`httpGet` is the only network request. -/
inductive RelEffect
  | mkdirAll (p : String)
  | httpGet (url : String)
  | createFile (p : String)
  | copyBody (p : String)
  | openFile (p : String)
  | untarInto (root : String)
  | rename (old : String) (new : String)
deriving DecidableEq, Repr

/-- Insert a path into a list of paths when absent. -/
def addPath (p : String) (l : List String) : List String :=
  if p ∈ l then l else p :: l

/-- The local tarball path computed at line 173:
`Root + "/dojo-v" + Version + ".tar.gz"`. -/
def dojoTarball (d : DDConfig) : String :=
  d.conf.Install.Root ++ "/dojo-v" ++ d.conf.Install.Version ++ ".tar.gz"

/-- The download URL computed at line 172:
`releaseURL + Version + ".tar.gz"`. -/
def dwnURL (d : DDConfig) : String :=
  d.releaseURL ++ d.conf.Install.Version ++ ".tar.gz"

/-- The `oldPath` of the rename at line 262:
`filepath.Join(Root, "django-DefectDojo-" + Version)` - note there is no
`v` between the application name and the version. -/
def oldSrcPath (d : DDConfig) : String :=
  filepathJoin d.conf.Install.Root ("django-DefectDojo-" ++ d.conf.Install.Version)

/-- The `newPath` of the rename at line 263:
`filepath.Join(Root, Source)`. -/
def newSrcPath (d : DDConfig) : String :=
  filepathJoin d.conf.Install.Root d.conf.Install.Source

/-- Modelled from the spec: the tarball extractor `untar` (called at
line 254, defined outside this file) writes every entry of the archive
under the destination root (spec 4.5).  The DefectDojo release archive
for the configured version expands to the single top-level tree that the
caller renames at lines 262-264, namely `oldSrcPath`; extraction makes
that non-empty directory exist. -/
def untarFS (d : DDConfig) (fs : FS) : FS :=
  { fs with dirs := addPath (oldSrcPath d) fs.dirs }

/-- `os.Rename` on the directories of this model (POSIX rename):
fails when the old path does not exist; succeeds and performs no action
when the old and new arguments resolve to the same existing directory
(POSIX same-path rule); fails when a different directory already exists
at the new path, because every directory of this model is a non-empty
tree and rename cannot replace a non-empty directory; otherwise moves
the directory. -/
def renameDir (old new : String) (fs : FS) : FS × Option String :=
  if old ∉ fs.dirs then
    (fs, some ("rename " ++ old ++ " " ++ new ++ ": no such file or directory"))
  else if old = new then
    (fs, none)
  else if new ∈ fs.dirs then
    (fs, some ("rename " ++ old ++ " " ++ new ++ ": directory not empty"))
  else
    ({ fs with dirs := addPath new (fs.dirs.erase old) }, none)

/-- Embedding of `extractRelease` (lines 246-270): open the tarball
(fails when the file is absent or the open call fails), expand it under
the install root, then rename `oldSrcPath` to `newSrcPath`, returning
any rename error. -/
def extractRelease (d : DDConfig) (env : RelEnv) (fs : FS) (t : String) :
    FS × List RelEffect × Option String :=
  if ¬ (t ∈ fs.files ∧ env.openOk = true) then
    (fs, [RelEffect.openFile t], some "error opening tarball")
  else if env.untarOk = false then
    (fs, [RelEffect.openFile t, RelEffect.untarInto d.conf.Install.Root],
     some "error extracting tarball")
  else
    ((renameDir (oldSrcPath d) (newSrcPath d) (untarFS d fs)).1,
     [RelEffect.openFile t, RelEffect.untarInto d.conf.Install.Root,
      RelEffect.rename (oldSrcPath d) (newSrcPath d)],
     (renameDir (oldSrcPath d) (newSrcPath d) (untarFS d fs)).2)

/-- The install root after the stat-and-create step of lines 160-169. -/
def ensureRoot (d : DDConfig) (fs : FS) : FS :=
  if d.conf.Install.Root ∈ fs.dirs then fs
  else { fs with dirs := addPath d.conf.Install.Root fs.dirs }

/-- The trace of the stat-and-create step of lines 160-169. -/
def mkdirTrace (d : DDConfig) (fs : FS) : List RelEffect :=
  if d.conf.Install.Root ∈ fs.dirs then []
  else [RelEffect.mkdirAll d.conf.Install.Root]

/-- The filesystem after `os.Create` writes the tarball file
(lines 220, 228). -/
def writeTarball (d : DDConfig) (fs : FS) : FS :=
  { fs with files := addPath (dojoTarball d) fs.files }

/-- Embedding of `getDojoRelease` (lines 152-244): ensure the install
root exists (creation failure returned); stat the expected tarball and,
when it already exists, extract it directly; otherwise download it over
HTTP, create and fill the local file, and extract. -/
def getDojoRelease (d : DDConfig) (env : RelEnv) (fs : FS) :
    FS × List RelEffect × Option String :=
  if d.conf.Install.Root ∉ fs.dirs ∧ env.mkdirOk = false then
    (fs, [RelEffect.mkdirAll d.conf.Install.Root], some "error creating Dojo root directory")
  else if dojoTarball d ∈ (ensureRoot d fs).files then
    ((extractRelease d env (ensureRoot d fs) (dojoTarball d)).1,
     mkdirTrace d fs ++ (extractRelease d env (ensureRoot d fs) (dojoTarball d)).2.1,
     (extractRelease d env (ensureRoot d fs) (dojoTarball d)).2.2)
  else if env.httpOk = false then
    (ensureRoot d fs, mkdirTrace d fs ++ [RelEffect.httpGet (dwnURL d)],
     some "error downloading release")
  else if env.createOk = false then
    (ensureRoot d fs,
     mkdirTrace d fs ++ [RelEffect.httpGet (dwnURL d), RelEffect.createFile (dojoTarball d)],
     some "error creating tarball")
  else if env.copyOk = false then
    (writeTarball d (ensureRoot d fs),
     mkdirTrace d fs ++ [RelEffect.httpGet (dwnURL d), RelEffect.createFile (dojoTarball d),
       RelEffect.copyBody (dojoTarball d)],
     some "error writing file contents")
  else
    ((extractRelease d env (writeTarball d (ensureRoot d fs)) (dojoTarball d)).1,
     mkdirTrace d fs ++ [RelEffect.httpGet (dwnURL d), RelEffect.createFile (dojoTarball d),
       RelEffect.copyBody (dojoTarball d)]
       ++ (extractRelease d env (writeTarball d (ensureRoot d fs)) (dojoTarball d)).2.1,
     (extractRelease d env (writeTarball d (ensureRoot d fs)) (dojoTarball d)).2.2)

/-! ### Helper lemmas about the release-path state -/

theorem addPath_mem_self (p : String) (l : List String) : p ∈ addPath p l := by
  unfold addPath
  split
  · assumption
  · exact List.mem_cons_self p l

theorem addPath_mem_of_mem (q : String) {p : String} {l : List String} (h : p ∈ l) :
    p ∈ addPath q l := by
  unfold addPath
  split
  · exact h
  · exact List.mem_cons_of_mem q h

theorem filepathJoin_ne_base (a b : String) : filepathJoin a b ≠ a := by
  intro hEq
  have hl := congrArg String.length hEq
  rw [filepathJoin, String.length_append, String.length_append] at hl
  have h1 : String.length "/" = 1 := rfl
  omega

theorem ensureRoot_files (d : DDConfig) (fs : FS) : (ensureRoot d fs).files = fs.files := by
  unfold ensureRoot
  split <;> rfl

theorem ensureRoot_root_mem (d : DDConfig) (fs : FS) :
    d.conf.Install.Root ∈ (ensureRoot d fs).dirs := by
  unfold ensureRoot
  split
  · assumption
  · exact addPath_mem_self _ _

theorem writeTarball_dirs (d : DDConfig) (fs : FS) : (writeTarball d fs).dirs = fs.dirs := rfl

theorem renameDir_files (old new : String) (fs : FS) :
    (renameDir old new fs).1.files = fs.files := by
  unfold renameDir
  by_cases h1 : old ∉ fs.dirs
  · rw [if_pos h1]
  · rw [if_neg h1]
    by_cases h2 : old = new
    · rw [if_pos h2]
    · rw [if_neg h2]
      by_cases h3 : new ∈ fs.dirs
      · rw [if_pos h3]
      · rw [if_neg h3]

theorem renameDir_success (old new : String) (fs : FS)
    (h : (renameDir old new fs).2 = none) :
    old ∈ fs.dirs ∧
      ((old = new ∧ (renameDir old new fs).1 = fs) ∨
       (new ∉ fs.dirs ∧
        (renameDir old new fs).1.dirs = addPath new (fs.dirs.erase old))) := by
  unfold renameDir at h ⊢
  by_cases h1 : old ∉ fs.dirs
  · rw [if_pos h1] at h
    simp at h
  · rw [if_neg h1] at h ⊢
    by_cases h2 : old = new
    · rw [if_pos h2] at h ⊢
      exact ⟨not_not.mp h1, Or.inl ⟨h2, rfl⟩⟩
    · rw [if_neg h2] at h ⊢
      by_cases h3 : new ∈ fs.dirs
      · rw [if_pos h3] at h
        simp at h
      · rw [if_neg h3] at h ⊢
        exact ⟨not_not.mp h1, Or.inr ⟨h3, rfl⟩⟩

theorem extractRelease_no_httpGet (d : DDConfig) (env : RelEnv) (fs : FS) (t u : String) :
    RelEffect.httpGet u ∉ (extractRelease d env fs t).2.1 := by
  unfold extractRelease
  split
  · simp
  · split <;> simp

theorem extractRelease_success_state (d : DDConfig) (env : RelEnv) (fs : FS) (t : String)
    (h : (extractRelease d env fs t).2.2 = none) :
    env.openOk = true ∧ env.untarOk = true ∧ t ∈ fs.files ∧
    (extractRelease d env fs t).1.files = fs.files ∧
    newSrcPath d ∈ (extractRelease d env fs t).1.dirs ∧
    (∀ p, p ∈ fs.dirs → p ≠ oldSrcPath d → p ∈ (extractRelease d env fs t).1.dirs) := by
  unfold extractRelease at h ⊢
  split at h
  next h1 => simp at h
  next h1 =>
    have h1a : t ∈ fs.files ∧ env.openOk = true := not_not.mp h1
    split at h
    next h2 => simp at h
    next h2 =>
      have h2a : env.untarOk = true := by
        cases hx : env.untarOk
        · exact absurd hx h2
        · rfl
      rw [if_neg h1, if_neg h2]
      obtain ⟨hmem, hcase⟩ :=
        renameDir_success (oldSrcPath d) (newSrcPath d) (untarFS d fs) h
      refine ⟨h1a.2, h2a, h1a.1, ?_, ?_, ?_⟩
      · rw [renameDir_files]
        rfl
      · rcases hcase with ⟨heq, hres⟩ | ⟨hnin, hdirs⟩
        · rw [hres, ← heq]
          exact addPath_mem_self _ _
        · rw [hdirs]
          exact addPath_mem_self _ _
      · intro p hp hnep
        rcases hcase with ⟨heq, hres⟩ | ⟨hnin, hdirs⟩
        · rw [hres]
          exact addPath_mem_of_mem _ hp
        · rw [hdirs]
          apply addPath_mem_of_mem
          rw [List.mem_erase_of_ne hnep]
          exact addPath_mem_of_mem _ hp

theorem getDojoRelease_resume_eq (d : DDConfig) (env : RelEnv) (fs : FS)
    (ht : dojoTarball d ∈ fs.files)
    (hd : d.conf.Install.Root ∈ fs.dirs ∨ env.mkdirOk = true) :
    getDojoRelease d env fs =
      ((extractRelease d env (ensureRoot d fs) (dojoTarball d)).1,
       mkdirTrace d fs ++ (extractRelease d env (ensureRoot d fs) (dojoTarball d)).2.1,
       (extractRelease d env (ensureRoot d fs) (dojoTarball d)).2.2) := by
  have h1 : ¬ (d.conf.Install.Root ∉ fs.dirs ∧ env.mkdirOk = false) := by
    rintro ⟨hn, hm⟩
    rcases hd with hd | hd
    · exact hn hd
    · rw [hd] at hm
      simp at hm
  have h2 : dojoTarball d ∈ (ensureRoot d fs).files := by
    rw [ensureRoot_files]
    exact ht
  unfold getDojoRelease
  rw [if_neg h1, if_pos h2]

theorem getDojoRelease_success_state (d : DDConfig) (env : RelEnv) (fs : FS)
    (h : (getDojoRelease d env fs).2.2 = none) :
    d.conf.Install.Root ∈ (getDojoRelease d env fs).1.dirs ∧
    dojoTarball d ∈ (getDojoRelease d env fs).1.files ∧
    newSrcPath d ∈ (getDojoRelease d env fs).1.dirs ∧
    env.openOk = true ∧ env.untarOk = true := by
  have hro : d.conf.Install.Root ≠ oldSrcPath d := (filepathJoin_ne_base _ _).symm
  unfold getDojoRelease at h ⊢
  split at h
  next h1 => simp at h
  next h1 =>
    split at h
    next h2 =>
      rw [if_neg h1, if_pos h2]
      obtain ⟨ho, hu, htf, hfiles, hnew, hpres⟩ :=
        extractRelease_success_state d env (ensureRoot d fs) (dojoTarball d) h
      refine ⟨?_, ?_, hnew, ho, hu⟩
      · exact hpres _ (ensureRoot_root_mem d fs) hro
      · rw [hfiles, ensureRoot_files]
        rw [ensureRoot_files] at h2
        exact h2
    next h2 =>
      split at h
      next h3 => simp at h
      next h3 =>
        split at h
        next h4 => simp at h
        next h4 =>
          split at h
          next h5 => simp at h
          next h5 =>
            rw [if_neg h1, if_neg h2, if_neg h3, if_neg h4, if_neg h5]
            obtain ⟨ho, hu, htf, hfiles, hnew, hpres⟩ :=
              extractRelease_success_state d env (writeTarball d (ensureRoot d fs))
                (dojoTarball d) h
            refine ⟨?_, ?_, hnew, ho, hu⟩
            · refine hpres _ ?_ hro
              rw [writeTarball_dirs]
              exact ensureRoot_root_mem d fs
            · rw [hfiles]
              exact addPath_mem_self _ _

/-! ### Concrete release configuration and claims C3, C4, C5 -/

/-- The Install section of a concrete release-install configuration,
used by witnesses and counterexamples. -/
def releaseInstall : InstallConfig where
  Root := "/opt/dojo"
  Source := "defectdojo"
  Version := "2.30.0"
  PullSource := true
  SourceInstall := false
  SourceCommit := ""
  SourceBranch := ""
  PyPath := "/usr/bin/python3.11"

/-- A concrete release-install configuration, used by witnesses and
counterexamples. -/
def dReleaseCfg : DDConfig where
  conf := { Install := releaseInstall }
  cloneURL := "https://github.com/DefectDojo/django-DefectDojo.git"
  releaseURL := "https://github.com/DefectDojo/django-DefectDojo/archive/"

/-- An environment in which every external call of the release path
succeeds. -/
def relEnvAllOk : RelEnv where
  mkdirOk := true
  httpOk := true
  createOk := true
  copyOk := true
  openOk := true
  untarOk := true

/-- The empty filesystem. -/
def fsEmpty : FS where
  dirs := []
  files := []

/-- A filesystem in which the install root and the configured source
directory exist and the expected tarball is already present. -/
def fsResume : FS where
  dirs := ["/opt/dojo", "/opt/dojo/defectdojo"]
  files := ["/opt/dojo/dojo-v2.30.0.tar.gz"]

/-- C3: when a file already exists at the expected local tarball path
`Root + "/dojo-v" + Version + ".tar.gz"`, `getDojoRelease` performs no
network request at all, and (whenever the root-directory step does not
itself fail) the rest of the run is exactly the extraction of the
existing tarball. -/
theorem getDojoRelease_existing_tarball_skips_network (d : DDConfig) (env : RelEnv) (fs : FS)
    (ht : dojoTarball d ∈ fs.files) :
    (∀ u, RelEffect.httpGet u ∉ (getDojoRelease d env fs).2.1) ∧
    ((d.conf.Install.Root ∈ fs.dirs ∨ env.mkdirOk = true) →
      getDojoRelease d env fs =
        ((extractRelease d env (ensureRoot d fs) (dojoTarball d)).1,
         mkdirTrace d fs ++ (extractRelease d env (ensureRoot d fs) (dojoTarball d)).2.1,
         (extractRelease d env (ensureRoot d fs) (dojoTarball d)).2.2)) := by
  constructor
  · intro u
    by_cases hd : d.conf.Install.Root ∈ fs.dirs ∨ env.mkdirOk = true
    · rw [getDojoRelease_resume_eq d env fs ht hd]
      simp only [List.mem_append, not_or]
      refine ⟨?_, extractRelease_no_httpGet d env _ _ u⟩
      unfold mkdirTrace
      split <;> simp
    · simp only [not_or, Bool.not_eq_true] at hd
      have h1 : d.conf.Install.Root ∉ fs.dirs ∧ env.mkdirOk = false := hd
      unfold getDojoRelease
      rw [if_pos h1]
      simp
  · intro hd
    exact getDojoRelease_resume_eq d env fs ht hd

/-- Witness for C3: with the tarball already on disk, the run makes no
HTTP request and is exactly the extraction of that tarball. -/
theorem getDojoRelease_existing_tarball_skips_network_witness :
    RelEffect.httpGet (dwnURL dReleaseCfg) ∉ (getDojoRelease dReleaseCfg relEnvAllOk fsResume).2.1 ∧
    (getDojoRelease dReleaseCfg relEnvAllOk fsResume).2.1 =
      (extractRelease dReleaseCfg relEnvAllOk fsResume (dojoTarball dReleaseCfg)).2.1 := by
  have h := getDojoRelease_existing_tarball_skips_network dReleaseCfg relEnvAllOk fsResume
    (by decide)
  have h2 := (h.2 (Or.inl (by decide)))
  have hens : ensureRoot dReleaseCfg fsResume = fsResume := by decide
  have hmk : mkdirTrace dReleaseCfg fsResume = [] := by decide
  refine ⟨h.1 _, ?_⟩
  rw [h2, hens, hmk]
  simp

/-- C5 counterexample: in a concrete resumed run, the rename recorded in
the trace moves `/opt/dojo/django-DefectDojo-2.30.0` - whose name does
not contain `-v2.30.0`, hence is not of the claimed form
`<app>-v<version>` - and no rename from the claimed versioned name
`/opt/dojo/django-DefectDojo-v2.30.0` ever appears. -/
theorem extractRelease_rename_no_v_cex :
    RelEffect.rename "/opt/dojo/django-DefectDojo-2.30.0" "/opt/dojo/defectdojo"
      ∈ (getDojoRelease dReleaseCfg relEnvAllOk
          { dirs := ["/opt/dojo"], files := ["/opt/dojo/dojo-v2.30.0.tar.gz"] }).2.1 ∧
    RelEffect.rename "/opt/dojo/django-DefectDojo-v2.30.0" "/opt/dojo/defectdojo"
      ∉ (getDojoRelease dReleaseCfg relEnvAllOk
          { dirs := ["/opt/dojo"], files := ["/opt/dojo/dojo-v2.30.0.tar.gz"] }).2.1 ∧
    List.isSuffixOf "-v2.30.0".toList "/opt/dojo/django-DefectDojo-2.30.0".toList = false := by
  refine ⟨?_, ?_, ?_⟩ <;> decide

/-- C5 (amended): after a successful open and expansion, the extraction
step renames the unversioned-prefix directory
`Root/django-DefectDojo-<Version>` - with no `v` before the version - to
the configured `Root/Source`, and when the destination is a different
path than the source of the rename (POSIX rename succeeds as a no-op on
the same path) and already exists, the rename failure is returned as an
error. -/
theorem extractRelease_renames_unversioned (d : DDConfig) (env : RelEnv) (fs : FS) (t : String)
    (ht : t ∈ fs.files) (ho : env.openOk = true) (hu : env.untarOk = true) :
    (extractRelease d env fs t).2.1 =
      [RelEffect.openFile t, RelEffect.untarInto d.conf.Install.Root,
       RelEffect.rename (oldSrcPath d) (newSrcPath d)] ∧
    oldSrcPath d = filepathJoin d.conf.Install.Root
      ("django-DefectDojo-" ++ d.conf.Install.Version) ∧
    newSrcPath d = filepathJoin d.conf.Install.Root d.conf.Install.Source ∧
    (oldSrcPath d ≠ newSrcPath d → newSrcPath d ∈ fs.dirs →
      ∃ e, (extractRelease d env fs t).2.2 = some e) := by
  have h1 : ¬ ¬ (t ∈ fs.files ∧ env.openOk = true) := not_not_intro ⟨ht, ho⟩
  have h2 : ¬ env.untarOk = false := by
    rw [hu]
    simp
  unfold extractRelease
  rw [if_neg h1, if_neg h2]
  refine ⟨rfl, rfl, rfl, ?_⟩
  intro hne hnew
  have hnew1 : newSrcPath d ∈ (untarFS d fs).dirs := addPath_mem_of_mem _ hnew
  unfold renameDir
  by_cases h3 : oldSrcPath d ∉ (untarFS d fs).dirs
  · rw [if_pos h3]
    exact ⟨_, rfl⟩
  · rw [if_neg h3, if_neg hne, if_pos hnew1]
    exact ⟨_, rfl⟩

/-- Witness for C5 (amended) at a concrete run in which the
destination directory already exists. -/
theorem extractRelease_renames_unversioned_witness :
    (extractRelease dReleaseCfg relEnvAllOk fsResume (dojoTarball dReleaseCfg)).2.1 =
      [RelEffect.openFile (dojoTarball dReleaseCfg),
       RelEffect.untarInto dReleaseCfg.conf.Install.Root,
       RelEffect.rename (oldSrcPath dReleaseCfg) (newSrcPath dReleaseCfg)] ∧
    (∃ e, (extractRelease dReleaseCfg relEnvAllOk fsResume (dojoTarball dReleaseCfg)).2.2
      = some e) := by
  have h := extractRelease_renames_unversioned dReleaseCfg relEnvAllOk fsResume
    (dojoTarball dReleaseCfg) (by decide) rfl rfl
  exact ⟨h.1, h.2.2.2 (by decide) (by decide)⟩

/-- C4 counterexample: from an empty filesystem, a first run of
`getDojoRelease` at a concrete configuration succeeds, and a second run
on the resulting state does NOT succeed (the re-extraction renames onto
the now-existing source directory and fails), refuting the claim that
the re-run returns nil. -/
theorem getDojoRelease_rerun_not_noop_cex :
    (getDojoRelease dReleaseCfg relEnvAllOk fsEmpty).2.2 = none ∧
    ¬ (getDojoRelease dReleaseCfg relEnvAllOk
        (getDojoRelease dReleaseCfg relEnvAllOk fsEmpty).1).2.2 = none := by
  refine ⟨?_, ?_⟩ <;> decide

/-- C4 (amended): provided the configured source directory name differs
from the versioned directory the archive expands to (so the final rename
is not a POSIX same-path no-op), re-running `getDojoRelease` after a
fully successful run performs zero network requests and re-validates the
tarball, but it is not a no-op: it re-attempts extraction (the tarball
is opened again) and the rename fails because the configured source
directory already exists, so the second run returns that rename error
instead of nil. -/
theorem getDojoRelease_rerun_fails_rename (d : DDConfig) (env : RelEnv) (fs : FS)
    (hne : oldSrcPath d ≠ newSrcPath d)
    (h : (getDojoRelease d env fs).2.2 = none) :
    (∀ u, RelEffect.httpGet u ∉ (getDojoRelease d env (getDojoRelease d env fs).1).2.1) ∧
    RelEffect.openFile (dojoTarball d) ∈ (getDojoRelease d env (getDojoRelease d env fs).1).2.1 ∧
    (getDojoRelease d env (getDojoRelease d env fs).1).2.2 =
      some ("rename " ++ oldSrcPath d ++ " " ++ newSrcPath d ++ ": directory not empty") := by
  obtain ⟨hroot, htar, hnew, ho, hu⟩ := getDojoRelease_success_state d env fs h
  have hA := getDojoRelease_resume_eq d env (getDojoRelease d env fs).1 htar (Or.inl hroot)
  have hmk : mkdirTrace d (getDojoRelease d env fs).1 = [] := by
    unfold mkdirTrace
    rw [if_pos hroot]
  have hens : ensureRoot d (getDojoRelease d env fs).1 = (getDojoRelease d env fs).1 := by
    unfold ensureRoot
    rw [if_pos hroot]
  rw [hA, hmk, hens]
  have h1 : ¬ ¬ (dojoTarball d ∈ (getDojoRelease d env fs).1.files ∧ env.openOk = true) :=
    not_not_intro ⟨htar, ho⟩
  have h2 : ¬ env.untarOk = false := by
    rw [hu]
    simp
  unfold extractRelease
  rw [if_neg h1, if_neg h2]
  have hold : oldSrcPath d ∈ (untarFS d (getDojoRelease d env fs).1).dirs :=
    addPath_mem_self _ _
  have hnew1 : newSrcPath d ∈ (untarFS d (getDojoRelease d env fs).1).dirs :=
    addPath_mem_of_mem _ hnew
  unfold renameDir
  rw [if_neg (not_not_intro hold), if_neg hne, if_pos hnew1]
  refine ⟨?_, ?_, rfl⟩
  · intro u
    simp
  · simp

/-- Witness for C4 (amended): the concrete two-run scenario returns the
directory-not-empty rename error on the second run. -/
theorem getDojoRelease_rerun_fails_rename_witness :
    (getDojoRelease dReleaseCfg relEnvAllOk
        (getDojoRelease dReleaseCfg relEnvAllOk fsEmpty).1).2.2 =
      some ("rename " ++ oldSrcPath dReleaseCfg ++ " " ++ newSrcPath dReleaseCfg ++
        ": directory not empty") :=
  (getDojoRelease_rerun_fails_rename dReleaseCfg relEnvAllOk fsEmpty (by decide) (by decide)).2.2

end Godojo
